import Mathlib

/-!
Shallow embedding of the cratery registry core (publish envelope decoding,
metadata validation, index-record construction, S3 SigV4 signing,
configuration loading, and the user authentication check), together with
theorems settling the specification claims against it.

Bytes are modelled as `Nat` values below 256, byte buffers as `List Nat`,
and Rust strings as Lean `String`/`List Char` (both are sequences of Unicode
scalar values backed by UTF-8).  Fallible Rust code returns `Except`/`Option`;
a reachable Rust `panic!` (or panicking slice index) is modelled as an
explicit `panicked` outcome.
-/

namespace Cratery

/-! ## Byte-level helpers -/

/-- The modulus for 32-bit words. -/
def w32 : Nat := 4294967296

/-- Rotate a 32-bit word right by a given amount. -/
def rotr32 (x k : Nat) : Nat := ((x >>> k) ||| (x <<< (32 - k))) % w32

/-- Bitwise complement of a 32-bit word. -/
def not32 (x : Nat) : Nat := x ^^^ 4294967295

/-- Big-endian serialization of a 32-bit word into four bytes. -/
def wordBytesBE (w : Nat) : List Nat :=
  [(w >>> 24) % 256, (w >>> 16) % 256, (w >>> 8) % 256, w % 256]

/-- The lowercase hexadecimal digit for a value below 16. -/
def hexDigitLower (n : Nat) : Char :=
  List.getD ("0123456789abcdef".data) n '0'

/-- Lowercase hexadecimal rendering of a byte sequence,
as the `data_encoding::HEXLOWER` alphabet used by the source. -/
def hexLowerBytes (bytes : List Nat) : List Char :=
  bytes.flatMap (fun b => [hexDigitLower (b / 16 % 16), hexDigitLower (b % 16)])

/-- UTF-8 encoding of one Unicode scalar value, as Rust's `str::as_bytes`. -/
def utf8Bytes (c : Char) : List Nat :=
  let v := c.toNat
  if v < 128 then [v]
  else if v < 2048 then [192 + v / 64, 128 + v % 64]
  else if v < 65536 then [224 + v / 4096, 128 + v / 64 % 64, 128 + v % 64]
  else [240 + v / 262144, 128 + v / 4096 % 64, 128 + v / 64 % 64, 128 + v % 64]

/-- UTF-8 encoding of a string, as Rust's `str::as_bytes`. -/
def strBytes (s : String) : List Nat := s.data.flatMap utf8Bytes

/-- Rust's `str::len`: the number of UTF-8 bytes of a string. -/
def rustStrLen (s : String) : Nat := (strBytes s).length

/-! ## SHA-256

The source (`src/src/objects.rs`, `sha256`) delegates the digest itself to the
`ring` library; this is the standard FIPS 180-4 SHA-256 over `Nat` words
reduced modulo `2 ^ 32`, which is what that library computes. -/

/-- The 64 round constants of FIPS 180-4 section 4.2.2, in decimal. -/
def sha256K : List Nat :=
  [1116352408, 1899447441, 3049323471, 3921009573, 961987163, 1508970993,
   2453635748, 2870763221, 3624381080, 310598401, 607225278, 1426881987,
   1925078388, 2162078206, 2614888103, 3248222580, 3835390401, 4022224774,
   264347078, 604807628, 770255983, 1249150122, 1555081692, 1996064986,
   2554220882, 2821834349, 2952996808, 3210313671, 3336571891, 3584528711,
   113926993, 338241895, 666307205, 773529912, 1294757372, 1396182291,
   1695183700, 1986661051, 2177026350, 2456956037, 2730485921, 2820302411,
   3259730800, 3345764771, 3516065817, 3600352804, 4094571909, 275423344,
   430227734, 506948616, 659060556, 883997877, 958139571, 1322822218,
   1537002063, 1747873779, 1955562222, 2024104815, 2227730452, 2361852424,
   2428436474, 2756734187, 3204031479, 3329325298]

/-- The running hash state: eight 32-bit words. -/
structure Sha256State where
  a : Nat
  b : Nat
  c : Nat
  d : Nat
  e : Nat
  f : Nat
  g : Nat
  h : Nat

/-- The initial hash value of FIPS 180-4 section 5.3.3, in decimal. -/
def sha256Init : Sha256State :=
  ⟨1779033703, 3144134277, 1013904242, 2773480762,
   1359893119, 2600822924, 528734635, 1541459225⟩

/-- The message-schedule function written sigma-zero in FIPS 180-4. -/
def lowSigma0 (x : Nat) : Nat := rotr32 x 7 ^^^ (rotr32 x 18 ^^^ (x >>> 3))

/-- The message-schedule function written sigma-one in FIPS 180-4. -/
def lowSigma1 (x : Nat) : Nat := rotr32 x 17 ^^^ (rotr32 x 19 ^^^ (x >>> 10))

/-- The compression function written Sigma-zero in FIPS 180-4. -/
def bigSigma0 (x : Nat) : Nat := rotr32 x 2 ^^^ (rotr32 x 13 ^^^ rotr32 x 22)

/-- The compression function written Sigma-one in FIPS 180-4. -/
def bigSigma1 (x : Nat) : Nat := rotr32 x 6 ^^^ (rotr32 x 11 ^^^ rotr32 x 25)

/-- The choice function of the compression rounds. -/
def sha256Ch (x y z : Nat) : Nat := (x &&& y) ^^^ (not32 x &&& z)

/-- The majority function of the compression rounds. -/
def sha256Maj (x y z : Nat) : Nat := (x &&& y) ^^^ ((x &&& z) ^^^ (y &&& z))

/-- Group consecutive bytes into big-endian 32-bit words. -/
def bytesToWordsBE : List Nat → List Nat
  | b0 :: b1 :: b2 :: b3 :: rest =>
      (b0 * 16777216 + b1 * 65536 + b2 * 256 + b3) % w32 :: bytesToWordsBE rest
  | _ => []

/-- Extend a 16-word block to the 64-word message schedule,
one word per fuel step. -/
def scheduleExtend : Nat → List Nat → List Nat
  | 0, ws => ws
  | n + 1, ws =>
      let i := ws.length
      let wi := (lowSigma1 (ws.getD (i - 2) 0) + ws.getD (i - 7) 0 +
                 lowSigma0 (ws.getD (i - 15) 0) + ws.getD (i - 16) 0) % w32
      scheduleExtend n (ws ++ [wi])

/-- One SHA-256 compression round for a (constant, schedule word) pair. -/
def sha256Round (st : Sha256State) (kw : Nat × Nat) : Sha256State :=
  let t1 := (st.h + bigSigma1 st.e + sha256Ch st.e st.f st.g + kw.1 + kw.2) % w32
  let t2 := (bigSigma0 st.a + sha256Maj st.a st.b st.c) % w32
  ⟨(t1 + t2) % w32, st.a, st.b, st.c, (st.d + t1) % w32, st.e, st.f, st.g⟩

/-- Process one 64-byte block. -/
def sha256Block (st : Sha256State) (block : List Nat) : Sha256State :=
  let ws := scheduleExtend 48 (bytesToWordsBE block)
  let r := (sha256K.zip ws).foldl sha256Round st
  ⟨(st.a + r.a) % w32, (st.b + r.b) % w32, (st.c + r.c) % w32, (st.d + r.d) % w32,
   (st.e + r.e) % w32, (st.f + r.f) % w32, (st.g + r.g) % w32, (st.h + r.h) % w32⟩

/-- Split a byte sequence into chunks of 64 bytes: fuelled worker
(one fuel unit per chunk, so `l.length` units always suffice). -/
def chunks64Go : Nat → List Nat → List (List Nat)
  | 0, _ => []
  | _, [] => []
  | n + 1, b :: rest => ((b :: rest).take 64) :: chunks64Go n ((b :: rest).drop 64)

/-- Split a byte sequence into chunks of 64 bytes. -/
def chunks64 (l : List Nat) : List (List Nat) := chunks64Go l.length l

/-- SHA-256 padding: a 1 bit, zeros to 56 mod 64 bytes,
then the bit length as a big-endian 64-bit integer. -/
def sha256Pad (msg : List Nat) : List Nat :=
  let len := msg.length
  let zeros := (64 + 56 - ((len + 1) % 64)) % 64
  let bitLen := 8 * len
  msg ++ [128] ++ List.replicate zeros 0 ++
    [(bitLen >>> 56) % 256, (bitLen >>> 48) % 256, (bitLen >>> 40) % 256, (bitLen >>> 32) % 256,
     (bitLen >>> 24) % 256, (bitLen >>> 16) % 256, (bitLen >>> 8) % 256, bitLen % 256]

/-- The SHA-256 digest of a byte sequence, as 32 bytes. -/
def sha256Digest (msg : List Nat) : List Nat :=
  let fin := (chunks64 (sha256Pad msg)).foldl sha256Block sha256Init
  wordBytesBE fin.a ++ wordBytesBE fin.b ++ wordBytesBE fin.c ++ wordBytesBE fin.d ++
  wordBytesBE fin.e ++ wordBytesBE fin.f ++ wordBytesBE fin.g ++ wordBytesBE fin.h

/-- `src/src/objects.rs`, `sha256`: the lowercase-hex SHA-256 digest of bytes. -/
def sha256 (buffer : List Nat) : String := String.mk (hexLowerBytes (sha256Digest buffer))

/-! ## `src/src/utils/s3/signing.rs` -/

/-- The S3 connection parameters (`cenotelie_lib_s3::S3Params`), as the
source constructs them in `Configuration::from_env`. -/
structure S3Params where
  uri : String
  region : String
  service : Option String
  access_key : String
  secret_key : String
deriving DecidableEq

/-- ASCII lowercasing of a string (header names are ASCII tokens,
where Rust's `str::to_lowercase` coincides with ASCII lowercasing). -/
def asciiLowerStr (s : String) : String := String.mk (s.data.map Char.toLower)

/-- Rust's `str::eq_ignore_ascii_case`. -/
def eqIgnoreAsciiCase (a b : String) : Bool := asciiLowerStr a == asciiLowerStr b

/-- `HeaderMap::insert` with the `HeaderName` lowercase normalization:
replace the value of an existing entry, otherwise append.  The map is
modelled as an ordered association list with lowercase keys, abstracting
the `http::HeaderMap` iteration order as insertion order. -/
def headerInsert (headers : List (String × String)) (name value : String) :
    List (String × String) :=
  let key := asciiLowerStr name
  if headers.any (fun p => p.1 == key) then
    headers.map (fun p => if p.1 == key then (key, value) else p)
  else headers ++ [(key, value)]

/-- `encode_uri_passthrough`: whether a character is left unescaped
(`str::contains(char)` is membership among the five special characters
slash, dash, underscore, dot, tilde). -/
def encode_uri_passthrough (c : Char) : Bool :=
  c.isAlphanum || "/-_.~".data.any (fun a => a == c)

/-- The uppercase hexadecimal digit for a value below 16. -/
def hexDigitUpper (n : Nat) : Char :=
  List.getD ("0123456789ABCDEF".data) n '0'

/-- The `%XX` escape the source writes with `format %{value:02X}`
for a scalar value of at most 255. -/
def percentEscape (c : Char) : List Char :=
  ['%', hexDigitUpper (c.toNat / 16), hexDigitUpper (c.toNat % 16)]

/-- The character loop of `encode_uri`: push passthrough characters,
escape scalar values up to 255, and `panic!` (here: `none`) beyond. -/
def encodeUriLoop : List Char → Option (List Char)
  | [] => some []
  | c :: rest =>
      if encode_uri_passthrough c then (encodeUriLoop rest).map (fun l => c :: l)
      else if c.toNat ≤ 255 then (encodeUriLoop rest).map (fun l => percentEscape c ++ l)
      else none

/-- `encode_uri`: borrow the input unchanged when nothing must be encoded,
otherwise run the escaping loop (which can panic on characters above 255). -/
def encode_uri (input : List Char) : Option (List Char) :=
  let must_encode := (input.map (fun c => if encode_uri_passthrough c then 0 else 1)).sum
  if must_encode = 0 then some input else encodeUriLoop input

/-- Lexicographic comparison of scalar-value sequences; on UTF-8 encoded
strings this is exactly Rust's `String` ordering (byte-lexicographic). -/
def charsLe : List Char → List Char → Bool
  | [], _ => true
  | _ :: _, [] => false
  | a :: as, b :: bs =>
      if a.toNat < b.toNat then true
      else if b.toNat < a.toNat then false
      else charsLe as bs

/-- Rust `String` ordering as a Boolean relation. -/
def strLe (a b : String) : Bool := charsLe a.data b.data

/-- Rust `String` ordering as a decidable relation, for sorting. -/
def strLeR (a b : String) : Prop := strLe a b = true

instance : DecidableRel strLeR :=
  fun a b => inferInstanceAs (Decidable (strLe a b = true))

/-- Header-entry ordering by name (the comparator of line 82 of the
source: `sort_unstable_by` on the lowercased names; names are distinct
in a `HeaderMap`, so the unspecified tie order is irrelevant). -/
def headerLeR (p q : String × String) : Prop := strLe p.1 q.1 = true

instance : DecidableRel headerLeR :=
  fun p q => inferInstanceAs (Decidable (strLe p.1 q.1 = true))

/-- The `encoded_key=encoded_value` strings of the query parameters, in
input order (`none` when some component panics in `encode_uri`). -/
def encPairStrings : List (String × String) → Option (List String)
  | [] => some []
  | (k, v) :: rest =>
      match encode_uri k.data, encode_uri v.data with
      | some ek, some ev =>
          (encPairStrings rest).map
            (fun l => (String.mk ek ++ "=" ++ String.mk ev) :: l)
      | _, _ => none

/-- The canonical query string of `signing_get_canonical_request_hash`
(lines 85-99): empty string for no parameters, otherwise the encoded
pair strings sorted with `Vec::sort_unstable` and joined with `&`. -/
def canonicalQueryString (query : List (String × String)) : Option String :=
  if query.isEmpty then some ""
  else (encPairStrings query).map
    (fun vars => String.intercalate "&" (List.insertionSort strLeR vars))

/-- `signing_get_canonical_request_hash`: the hex SHA-256 of the canonical
request (`none` when `encode_uri` panics on the path or the query). -/
def signing_get_canonical_request_hash (method path : String)
    (query : List (String × String)) (headers : List (String × String))
    (payload_hash : String) : Option String :=
  let hs := List.insertionSort headerLeR
    (headers.map (fun p => (asciiLowerStr p.1, p.2)))
  match encode_uri path.data with
  | none => none
  | some encPath =>
    match canonicalQueryString query with
    | none => none
    | some qs =>
      let parts := [method, String.mk encPath, qs] ++
        hs.map (fun p => p.1 ++ ":" ++ p.2) ++
        [""] ++ [String.intercalate ";" (hs.map (fun p => p.1))] ++ [payload_hash]
      some (sha256 (strBytes (String.intercalate "\n" parts)))

/-- HMAC-SHA256 (RFC 2104 with a 64-byte block), the `ring::hmac`
primitive the source calls. -/
def hmacSha256 (key msg : List Nat) : List Nat :=
  let k0 := if 64 < key.length then sha256Digest key else key
  let kpad := k0 ++ List.replicate (64 - k0.length) 0
  let ipadKey := kpad.map (fun b => b ^^^ 54)
  let opadKey := kpad.map (fun b => b ^^^ 92)
  sha256Digest (opadKey ++ sha256Digest (ipadKey ++ msg))

/-- `signing_get_string_to_sign`.  The two `chrono` renderings of `now`
(`%Y%m%dT%H%M%SZ` and `%Y%m%d`) are passed in preformatted. -/
def signing_get_string_to_sign (dateTime dateDay region service canonical_hash : String) :
    String :=
  "AWS4-HMAC-SHA256\n" ++ dateTime ++ "\n" ++ dateDay ++ "/" ++ region ++ "/" ++
    service ++ "/aws4_request\n" ++ canonical_hash

/-- `signing_get_key`: the SigV4 key-derivation HMAC chain. -/
def signing_get_key (secret_key dateDay region service : String) : List Nat :=
  let secret := strBytes ("AWS4" ++ secret_key)
  let date_key := hmacSha256 secret (strBytes dateDay)
  let date_region_key := hmacSha256 date_key (strBytes region)
  let date_region_service_key := hmacSha256 date_region_key (strBytes service)
  hmacSha256 date_region_service_key (strBytes "aws4_request")

/-- `signing_do_sign`: lowercase-hex HMAC of the string to sign. -/
def signing_do_sign (string_to_sign : String) (signing_key : List Nat) : String :=
  String.mk (hexLowerBytes (hmacSha256 signing_key (strBytes string_to_sign)))

/-- `sign_request`: add the date and payload-hash headers, then the
`authorization` header.  Returns the resulting header map
(`none` when `encode_uri` panics inside the canonical request). -/
def sign_request (params : S3Params) (method path : String)
    (query : List (String × String)) (headers : List (String × String))
    (payload_hash dateTime dateDay : String) : Option (List (String × String)) :=
  let headers1 := headerInsert headers "x-amz-date" dateTime
  let headers2 := headerInsert headers1 "x-amz-content-sha256" payload_hash
  match signing_get_canonical_request_hash method path query headers2 payload_hash with
  | none => none
  | some canonical_hash =>
    let service := params.service.getD "s3"
    let string_to_sign :=
      signing_get_string_to_sign dateTime dateDay params.region service canonical_hash
    let signing_key := signing_get_key params.secret_key dateDay params.region service
    let signature := signing_do_sign string_to_sign signing_key
    let names := headers2.map (fun p => asciiLowerStr p.1)
    some (headerInsert headers2 "authorization"
      ("AWS4-HMAC-SHA256 Credential=" ++ params.access_key ++ "/" ++ dateDay ++ "/" ++
        params.region ++ "/s3/aws4_request, SignedHeaders=" ++
        String.intercalate ";" names ++ ", Signature=" ++ signature))

/-! ## `src/src/objects.rs`: API objects, metadata validation, upload decoding -/

/-- The error kinds of `cenotelie_lib_apierror` used by the embedded code. -/
inductive ErrorKind where
  | invalidRequest
  | unauthorized
  | forbidden
deriving DecidableEq

/-- `cenotelie_lib_apierror::ApiError`: a kind plus optional specialized
details. -/
structure ApiError where
  kind : ErrorKind
  details : Option String
deriving DecidableEq

/-- `cenotelie_lib_apierror::error_invalid_request`. -/
def error_invalid_request : ApiError := ⟨ErrorKind.invalidRequest, none⟩

/-- `cenotelie_lib_apierror::error_unauthorized`. -/
def error_unauthorized : ApiError := ⟨ErrorKind.unauthorized, none⟩

/-- `cenotelie_lib_apierror::error_forbidden`. -/
def error_forbidden : ApiError := ⟨ErrorKind.forbidden, none⟩

/-- `cenotelie_lib_apierror::specialize`: attach a detail message. -/
def specialize (err : ApiError) (details : String) : ApiError :=
  { err with details := some details }

/-- `validation_error` (`src/src/objects.rs`). -/
def validation_error (details : String) : Except ApiError Unit :=
  Except.error (specialize error_invalid_request details)

/-- A JSON value (`serde_json::Value`); numbers are modelled as integers,
which suffices for the pass-through `badges` payload. -/
inductive Json where
  | null
  | bool (b : Bool)
  | num (n : Int)
  | str (s : String)
  | arr (items : List Json)
  | obj (fields : List (String × Json))

/-- `Dependency` (`src/src/objects.rs`). -/
structure Dependency where
  name : String
  version_req : String
  features : List String
  optional : Bool
  default_features : Bool
  target : Option String
  kind : String
  registry : Option String
  explicit_name_in_toml : Option String

/-- `CrateMetadata` (`src/src/objects.rs`); the two `HashMap` fields are
modelled as association lists. -/
structure CrateMetadata where
  name : String
  vers : String
  deps : List Dependency
  features : List (String × List String)
  authors : List String
  description : Option String
  documentation : Option String
  homepage : Option String
  readme : Option String
  readme_file : Option String
  keywords : List String
  categories : List String
  license : Option String
  license_file : Option String
  repository : String
  badges : List (String × Json)
  links : Option String

/-- `CrateUploadWarnings` with its `Default` value (all lists empty). -/
structure CrateUploadWarnings where
  invalid_categories : List String
  invalid_badges : List String
  other : List String

/-- `CrateUploadWarnings::default()`. -/
def CrateUploadWarnings.default : CrateUploadWarnings := ⟨[], [], []⟩

/-- `CrateUploadResult` (the publish response with warnings). -/
structure CrateUploadResult where
  warnings : CrateUploadWarnings

/-- `CrateUploadResult::default()`. -/
def CrateUploadResult.default : CrateUploadResult := ⟨CrateUploadWarnings.default⟩

/-- The character loop of `CrateMetadata::validate_name`: the first
character must be an ASCII letter, later ones ASCII alphanumeric or
`-` or `_`; the Boolean flag tells whether we are at index 0. -/
def validateNameChars : Bool → List Char → Except ApiError Unit
  | _, [] => Except.ok ()
  | true, c :: rest =>
      if c.isAlpha then validateNameChars false rest
      else validation_error "Name must start with an ASCII letter"
  | false, c :: rest =>
      if c.isAlphanum || c = '-' || c = '_' then validateNameChars false rest
      else validation_error "Name must only contain alphanumeric, -, _"

/-- `CrateMetadata::validate_name`: emptiness, UTF-8 byte length,
then the per-character checks. -/
def CrateMetadata.validate_name (m : CrateMetadata) : Except ApiError Unit :=
  if m.name = "" then validation_error "Name must not be empty"
  else if 64 < rustStrLen m.name then validation_error "Name must not exceed 64 characters"
  else validateNameChars true m.name.data

/-- The dependency loop of `CrateMetadata::validate_kind`. -/
def validateKindLoop : List Dependency → Except ApiError Unit
  | [] => Except.ok ()
  | dep :: rest =>
      if dep.kind ≠ "dev" ∧ dep.kind ≠ "build" ∧ dep.kind ≠ "normal" then
        validation_error "kind for dependency must be either [normal, dev, build]"
      else validateKindLoop rest

/-- `CrateMetadata::validate_kind`. -/
def CrateMetadata.validate_kind (m : CrateMetadata) : Except ApiError Unit :=
  validateKindLoop m.deps

/-- `CrateMetadata::validate`: name check, kind check, then the default
upload result. -/
def CrateMetadata.validate (m : CrateMetadata) : Except ApiError CrateUploadResult :=
  match m.validate_name with
  | Except.error e => Except.error e
  | Except.ok _ =>
    match m.validate_kind with
    | Except.error e => Except.error e
    | Except.ok _ => Except.ok CrateUploadResult.default

/-- `DependencyIndex` (`src/src/objects.rs`). -/
structure DependencyIndex where
  name : String
  req : String
  features : List String
  optional : Bool
  default_features : Bool
  target : Option String
  kind : String
  registry : Option String
  package : Option String

/-- `From<&Dependency> for DependencyIndex`. -/
def DependencyIndex.from (dep : Dependency) : DependencyIndex :=
  { name := dep.name
    req := dep.version_req
    features := dep.features
    optional := dep.optional
    default_features := dep.default_features
    target := dep.target
    kind := dep.kind
    registry := dep.registry
    package := dep.explicit_name_in_toml }

/-- `CrateMetadataIndex`: the per-version JSON line of the index. -/
structure CrateMetadataIndex where
  name : String
  vers : String
  deps : List DependencyIndex
  cksum : String
  features : List (String × List String)
  yanked : Bool
  links : Option String

/-- `CrateUploadData`: decoded publish metadata plus archive bytes. -/
structure CrateUploadData where
  metadata : CrateMetadata
  content : List Nat

/-- A little-endian `u32` read at a byte offset (`Cursor::read_u32`),
`none` when fewer than four bytes remain. -/
def readU32LE (buffer : List Nat) (pos : Nat) : Option Nat :=
  match buffer.drop pos with
  | b0 :: b1 :: b2 :: b3 :: _ => some (b0 + 256 * b1 + 65536 * b2 + 16777216 * b3)
  | _ => none

/-- The outcome of `CrateUploadData::new`: a decoded upload, an error
returned through `Result`, or a Rust panic (out-of-range slice index or
`copy_from_slice` length mismatch). -/
inductive UploadOutcome where
  | ok (data : CrateUploadData)
  | err
  | panicked

/-- `CrateUploadData::new`, parameterized by the `serde_json::from_slice`
metadata parser (external library code).  Mirrors the source exactly:
the `&buffer[4..(4 + metadata_length)]` slice panics when the declared
metadata length overruns the buffer, and
`content.copy_from_slice(&buffer[(4 + metadata_length + 4)..])` panics
whenever the declared content length differs from the remaining length. -/
def CrateUploadData.new (parse : List Nat → Option CrateMetadata)
    (buffer : List Nat) : UploadOutcome :=
  match readU32LE buffer 0 with
  | none => UploadOutcome.err
  | some metadata_length =>
    if buffer.length < 4 + metadata_length then UploadOutcome.panicked
    else
      let metadata_buffer := (buffer.drop 4).take metadata_length
      match parse metadata_buffer with
      | none => UploadOutcome.err
      | some metadata =>
        match readU32LE buffer (4 + metadata_length) with
        | none => UploadOutcome.err
        | some content_length =>
          let rest := buffer.drop (4 + metadata_length + 4)
          if rest.length = content_length then UploadOutcome.ok ⟨metadata, rest⟩
          else UploadOutcome.panicked

/-- `CrateUploadData::build_index_data`. -/
def CrateUploadData.build_index_data (u : CrateUploadData) : CrateMetadataIndex :=
  let cksum := sha256 u.content
  { name := u.metadata.name
    vers := u.metadata.vers
    deps := u.metadata.deps.map DependencyIndex.from
    cksum := cksum
    features := u.metadata.features
    yanked := false
    links := u.metadata.links }

/-! ## `src/src/app/mod.rs`: the authentication check -/

/-- `RegistryUser` (`src/src/objects.rs`). -/
structure RegistryUser where
  id : Int
  is_active : Bool
  email : String
  login : String
  name : String
  roles : String

/-- `Application::check_is_user`: the `RegistryUser` table is modelled as a
row list, and the SQL
`SELECT id FROM RegistryUser WHERE isActive = TRUE AND email = $1` with
`fetch_optional` as the first matching row; a missing row is mapped to
`error_unauthorized`. -/
def Application.check_is_user (db : List RegistryUser) (principal : String) :
    Except ApiError Int :=
  match db.find? (fun u => u.is_active && u.email == principal) with
  | some row => Except.ok row.id
  | none => Except.error error_unauthorized

/-! ## `src/src/model/config.rs`: the configuration loader -/

/-- `MissingEnvVar` (`model/errors.rs`): the name of the absent variable
(the wrapped `std::env::VarError` carries no extra data in our
environment model, which only represents absence). -/
structure MissingEnvVar where
  var_name : String
deriving DecidableEq

/-- An environment: a partial map from variable names to values. -/
def Env : Type := String → Option String

/-- `get_var` (`model/config.rs`). -/
def get_var (env : Env) (name : String) : Except MissingEnvVar String :=
  match env name with
  | some v => Except.ok v
  | none => Except.error ⟨name⟩

/-- `std::net::IpAddr`. -/
inductive IpAddr where
  | v4 (a b c d : Nat)
  | v6 (segments : List Nat)
deriving DecidableEq

/-- `ConfigExternalRegistry` (`model/config.rs`). -/
structure ConfigExternalRegistry where
  name : String
  index : String
  docs_root : String
  login : String
  token : String
deriving DecidableEq

/-- `IndexPublicConfig` (`model/config.rs`). -/
structure IndexPublicConfig where
  dl : String
  api : String
  auth_required : Bool
deriving DecidableEq

/-- `IndexConfig` (`model/config.rs`). -/
structure IndexConfig where
  location : String
  remote_origin : Option String
  remote_ssh_key_file_name : Option String
  remote_push_changes : Bool
  user_name : String
  user_email : String
  public : IndexPublicConfig
deriving DecidableEq

/-- `Configuration` (`model/config.rs`). -/
structure Configuration where
  log_level : String
  log_datetime_format : String
  web_listenon_ip : IpAddr
  web_listenon_port : Nat
  web_public_uri : String
  web_domain : String
  web_body_limit : Nat
  data_dir : String
  index_config : IndexConfig
  s3 : S3Params
  bucket : String
  oauth_login_uri : String
  oauth_token_uri : String
  oauth_callback_uri : String
  oauth_userinfo_uri : String
  oauth_client_id : String
  oauth_client_secret : String
  oauth_client_scope : String
  external_registries : List ConfigExternalRegistry
  self_service_login : String
  self_service_token : String
deriving DecidableEq

/-- The library parsers `Configuration::from_env` shells out to:
`IpAddr::from_str`, `u16::from_str`, `usize::from_str`, and
`axum::http::Uri::from_str` followed by `.host()` (the outer `Option`
is parse failure, the inner one a URI without a host). -/
structure ExternalParsers where
  parseIpAddr : String → Option IpAddr
  parseU16 : String → Option Nat
  parseUsize : String → Option Nat
  uriHost : String → Option (Option String)

/-- The outcome of `Configuration::from_env`: a configuration, a
`MissingEnvVar` error, a panic from one of the `expect` calls, or fuel
exhaustion of the external-registry loop (`nonterm` never arises when the
environment binds finitely many `REGISTRY_EXTERNAL_{i}_NAME` variables and
the fuel exceeds that count). -/
inductive ConfigOutcome where
  | ok (c : Configuration)
  | err (e : MissingEnvVar)
  | panicked
  | nonterm
deriving DecidableEq

/-- The `while let Ok(name) = get_var(REGISTRY_EXTERNAL_{i}_NAME)` loop of
`Configuration::from_env`, with explicit fuel for totality. -/
def externalRegistriesLoop (env : Env) : Nat → Nat →
    Except MissingEnvVar (Option (List ConfigExternalRegistry))
  | 0, _ => Except.ok none
  | fuel + 1, i =>
    match env ("REGISTRY_EXTERNAL_" ++ toString i ++ "_NAME") with
    | none => Except.ok (some [])
    | some name =>
      match get_var env ("REGISTRY_EXTERNAL_" ++ toString i ++ "_INDEX") with
      | Except.error e => Except.error e
      | Except.ok index =>
      match get_var env ("REGISTRY_EXTERNAL_" ++ toString i ++ "_DOCS") with
      | Except.error e => Except.error e
      | Except.ok docs_root =>
      match get_var env ("REGISTRY_EXTERNAL_" ++ toString i ++ "_LOGIN") with
      | Except.error e => Except.error e
      | Except.ok login =>
      match get_var env ("REGISTRY_EXTERNAL_" ++ toString i ++ "_TOKEN") with
      | Except.error e => Except.error e
      | Except.ok token =>
      match externalRegistriesLoop env fuel (i + 1) with
      | Except.error e => Except.error e
      | Except.ok none => Except.ok none
      | Except.ok (some rest) =>
          Except.ok (some (⟨name, index, docs_root, login, token⟩ :: rest))

/-- `Configuration::from_env`, parameterized by the external library
parsers, the two `generate_token` results (random), and the loop fuel.
The reads, their order, the defaults and the `expect` panics mirror the
source. -/
def Configuration.from_env (ps : ExternalParsers) (selfLogin selfToken : String)
    (fuel : Nat) (env : Env) : ConfigOutcome :=
  match get_var env "REGISTRY_DATA_DIR" with
  | Except.error e => ConfigOutcome.err e
  | Except.ok data_dir =>
  match get_var env "REGISTRY_WEB_PUBLIC_URI" with
  | Except.error e => ConfigOutcome.err e
  | Except.ok web_public_uri =>
  match get_var env "REGISTRY_GIT_USER_NAME" with
  | Except.error e => ConfigOutcome.err e
  | Except.ok git_user_name =>
  match get_var env "REGISTRY_GIT_USER_EMAIL" with
  | Except.error e => ConfigOutcome.err e
  | Except.ok git_user_email =>
  let index_config : IndexConfig :=
    { location := data_dir ++ "/index"
      remote_origin := env "REGISTRY_GIT_REMOTE"
      remote_ssh_key_file_name := env "REGISTRY_GIT_REMOTE_SSH_KEY_FILENAME"
      remote_push_changes :=
        match env "REGISTRY_GIT_REMOTE_PUSH_CHANGES" with
        | some value => value == "1" || eqIgnoreAsciiCase value "true"
        | none => false
      user_name := git_user_name
      user_email := git_user_email
      public :=
        { dl := web_public_uri ++ "/api/v1/crates"
          api := web_public_uri
          auth_required := true } }
  match externalRegistriesLoop env fuel 1 with
  | Except.error e => ConfigOutcome.err e
  | Except.ok none => ConfigOutcome.nonterm
  | Except.ok (some external_registries) =>
  let log_level := (env "REGISTRY_LOG_LEVEL").getD "INFO"
  let log_datetime_format :=
    (env "REGISTRY_LOG_DATE_TIME_FORMAT").getD "[%Y-%m-%d %H:%M:%S]"
  match (env "REGISTRY_WEB_LISTENON_IP").map ps.parseIpAddr with
  | some none => ConfigOutcome.panicked
  | other =>
  let web_listenon_ip := ((other.map (fun o => o.getD (IpAddr.v4 0 0 0 0))).getD
    (IpAddr.v4 0 0 0 0))
  match (env "REGISTRY_WEB_LISTENON_PORT").map ps.parseU16 with
  | some none => ConfigOutcome.panicked
  | otherPort =>
  let web_listenon_port := ((otherPort.map (fun o => o.getD 8080)).getD 8080)
  match ps.uriHost web_public_uri with
  | none => ConfigOutcome.panicked
  | some host =>
  let web_domain := host.getD ""
  let web_body_limit :=
    match (env "REGISTRY_WEB_BODY_LIMIT").bind ps.parseUsize with
    | some n => n
    | none => 10 * 1024 * 1024
  match get_var env "REGISTRY_S3_URI" with
  | Except.error e => ConfigOutcome.err e
  | Except.ok s3_uri =>
  match get_var env "REGISTRY_S3_REGION" with
  | Except.error e => ConfigOutcome.err e
  | Except.ok s3_region =>
  match get_var env "REGISTRY_S3_ACCESS_KEY" with
  | Except.error e => ConfigOutcome.err e
  | Except.ok s3_access_key =>
  match get_var env "REGISTRY_S3_SECRET_KEY" with
  | Except.error e => ConfigOutcome.err e
  | Except.ok s3_secret_key =>
  match get_var env "REGISTRY_S3_BUCKET" with
  | Except.error e => ConfigOutcome.err e
  | Except.ok bucket =>
  match get_var env "REGISTRY_OAUTH_LOGIN_URI" with
  | Except.error e => ConfigOutcome.err e
  | Except.ok oauth_login_uri =>
  match get_var env "REGISTRY_OAUTH_TOKEN_URI" with
  | Except.error e => ConfigOutcome.err e
  | Except.ok oauth_token_uri =>
  match get_var env "REGISTRY_OAUTH_CALLBACK_URI" with
  | Except.error e => ConfigOutcome.err e
  | Except.ok oauth_callback_uri =>
  match get_var env "REGISTRY_OAUTH_USERINFO_URI" with
  | Except.error e => ConfigOutcome.err e
  | Except.ok oauth_userinfo_uri =>
  match get_var env "REGISTRY_OAUTH_CLIENT_ID" with
  | Except.error e => ConfigOutcome.err e
  | Except.ok oauth_client_id =>
  match get_var env "REGISTRY_OAUTH_CLIENT_SECRET" with
  | Except.error e => ConfigOutcome.err e
  | Except.ok oauth_client_secret =>
  match get_var env "REGISTRY_OAUTH_CLIENT_SCOPE" with
  | Except.error e => ConfigOutcome.err e
  | Except.ok oauth_client_scope =>
  ConfigOutcome.ok
    { log_level := log_level
      log_datetime_format := log_datetime_format
      web_listenon_ip := web_listenon_ip
      web_listenon_port := web_listenon_port
      web_public_uri := web_public_uri
      web_domain := web_domain
      web_body_limit := web_body_limit
      data_dir := data_dir
      index_config := index_config
      s3 :=
        { uri := s3_uri
          region := s3_region
          service := env "REGISTRY_S3_SERVICE"
          access_key := s3_access_key
          secret_key := s3_secret_key }
      bucket := bucket
      oauth_login_uri := oauth_login_uri
      oauth_token_uri := oauth_token_uri
      oauth_callback_uri := oauth_callback_uri
      oauth_userinfo_uri := oauth_userinfo_uri
      oauth_client_id := oauth_client_id
      oauth_client_secret := oauth_client_secret
      oauth_client_scope := oauth_client_scope
      external_registries := external_registries
      self_service_login := selfLogin
      self_service_token := selfToken }

/-! ## Specification-side definitions and witness fixtures -/

/-- An environment given by an association list. -/
def envOfList (l : List (String × String)) : Env := fun s => l.lookup s

/-- A witness environment binding exactly the variables
`Configuration::from_env` requires. -/
def baseEnvList : List (String × String) :=
  [("REGISTRY_DATA_DIR", "/data"),
   ("REGISTRY_WEB_PUBLIC_URI", "https://registry.example.com"),
   ("REGISTRY_GIT_USER_NAME", "reg"),
   ("REGISTRY_GIT_USER_EMAIL", "reg@example.com"),
   ("REGISTRY_S3_URI", "https://s3.example.com"),
   ("REGISTRY_S3_REGION", "us-east-1"),
   ("REGISTRY_S3_ACCESS_KEY", "AK"),
   ("REGISTRY_S3_SECRET_KEY", "SK"),
   ("REGISTRY_S3_BUCKET", "crates"),
   ("REGISTRY_OAUTH_LOGIN_URI", "https://oauth.example.com/login"),
   ("REGISTRY_OAUTH_TOKEN_URI", "https://oauth.example.com/token"),
   ("REGISTRY_OAUTH_CALLBACK_URI", "https://registry.example.com/callback"),
   ("REGISTRY_OAUTH_USERINFO_URI", "https://oauth.example.com/userinfo"),
   ("REGISTRY_OAUTH_CLIENT_ID", "client"),
   ("REGISTRY_OAUTH_CLIENT_SECRET", "secret"),
   ("REGISTRY_OAUTH_CLIENT_SCOPE", "openid")]

/-- Witness parsers: never called for absent optional variables; the URI
host parser accepts the witness public URI. -/
def trivialParsers : ExternalParsers :=
  ⟨fun _ => none, fun _ => none, fun _ => none,
   fun _ => some (some "registry.example.com")⟩

/-- A sample metadata value for witnesses. -/
def sampleMetadata : CrateMetadata :=
  ⟨"a", "1.0.0", [], [], [], none, none, none, none, none, [], [], none, none, "", [], none⟩

/-- The claim-side pair order of C3: lexicographically by encoded key,
ties broken by encoded value. -/
def pairLeSpec (p q : String × String) : Prop :=
  (if p.1 = q.1 then strLe p.2 q.2 else strLe p.1 q.1) = true

instance : DecidableRel pairLeSpec :=
  fun p q => inferInstanceAs (Decidable (_ = true))

/-- The claim-side encoded pairs of C3: each query parameter as its
(encoded key, encoded value) pair, in input order. -/
def encPairsSpec : List (String × String) → Option (List (String × String))
  | [] => some []
  | (k, v) :: rest =>
      match encode_uri k.data, encode_uri v.data with
      | some ek, some ev =>
          (encPairsSpec rest).map (fun l => (String.mk ek, String.mk ev) :: l)
      | _, _ => none

/-- The claim-side canonical query string of C3, following the claim's
words: pairs ordered by encoded key then encoded value, joined with `&`. -/
def canonicalQueryStringSpec (query : List (String × String)) : Option String :=
  (encPairsSpec query).map (fun ps =>
    String.intercalate "&"
      ((List.insertionSort pairLeSpec ps).map (fun p => p.1 ++ "=" ++ p.2)))

/-- The claim-side byte-level encoder of C4, following the claim's words:
every byte of the UTF-8 input outside the passthrough set is replaced by
its uppercase `%XX` escape. -/
def encodeUriBytesSpec (s : String) : String :=
  String.mk ((strBytes s).flatMap (fun b =>
    if encode_uri_passthrough (Char.ofNat b) && b < 128 then [Char.ofNat b]
    else ['%', hexDigitUpper (b / 16 % 16), hexDigitUpper (b % 16)]))

/-- The amended per-character encoder of C4: passthrough characters are
kept, any other character is the uppercase `%XX` escape of its scalar
value. -/
def encodeUriCharModel (c : Char) : List Char :=
  if encode_uri_passthrough c then [c] else percentEscape c

/-- The claim-side name pattern of C6,
`^[A-Za-z][A-Za-z0-9_-]{0,63}$`, as a Boolean predicate: an ASCII letter
followed by at most 63 characters among ASCII alphanumerics, `-`, `_`. -/
def nameMatchesPattern (s : String) : Bool :=
  match s.data with
  | [] => false
  | c :: rest =>
      c.isAlpha && Nat.ble rest.length 63 &&
        rest.all (fun d => d.isAlphanum || d == '-' || d == '_')

/-! ## Shared lemmas -/

/-- A serialized word is four bytes long. -/
theorem wordBytesBE_length (w : Nat) : (wordBytesBE w).length = 4 := rfl

/-- A SHA-256 digest is 32 bytes long. -/
theorem sha256Digest_length (msg : List Nat) : (sha256Digest msg).length = 32 := by
  simp [sha256Digest, List.length_append, wordBytesBE_length]

/-- Hex rendering doubles the length. -/
theorem hexLowerBytes_length (l : List Nat) : (hexLowerBytes l).length = 2 * l.length := by
  induction l with
  | nil => simp [hexLowerBytes]
  | cons x xs ih =>
      simp only [hexLowerBytes, List.flatMap_cons] at ih ⊢
      simp only [List.length_append, List.length_cons, List.length_nil, ih]
      omega

/-- Every output of `hexDigitLower` is a lowercase hexadecimal digit. -/
theorem hexDigitLower_mem (n : Nat) : hexDigitLower n ∈ "0123456789abcdef".data := by
  unfold hexDigitLower
  rcases Nat.lt_or_ge n 16 with h | h
  · interval_cases n <;> decide
  · rw [List.getD_eq_default]
    · decide
    · have h16 : ("0123456789abcdef".data).length = 16 := rfl
      omega

/-- Every character of a hex rendering is a lowercase hexadecimal digit. -/
theorem hexLowerBytes_mem (l : List Nat) :
    ∀ c ∈ hexLowerBytes l, c ∈ "0123456789abcdef".data := by
  intro c hc
  rw [hexLowerBytes, List.mem_flatMap] at hc
  obtain ⟨b, _, hcb⟩ := hc
  simp only [List.mem_cons, List.not_mem_nil, or_false] at hcb
  rcases hcb with h | h <;> (subst h; apply hexDigitLower_mem)

set_option maxRecDepth 100000

/-- An ASCII-alphabetic character has a scalar value below 128. -/
theorem char_isAlpha_lt128 (c : Char) (h : c.isAlpha = true) : c.toNat < 128 := by
  simp [Char.isAlpha, Char.isUpper, Char.isLower] at h
  rcases h with ⟨_, h2⟩ | ⟨_, h2⟩ <;>
    (have h3 : c.val.toNat ≤ 122 := le_trans h2 (by decide)
     simp only [Char.toNat]
     omega)

/-- A character of the name class (alphanumeric, dash, underscore) is ASCII. -/
theorem char_class_lt128 (c : Char)
    (h : (c.isAlphanum || c == '-' || c == '_') = true) : c.toNat < 128 := by
  simp only [Bool.or_eq_true] at h
  rcases h with (h | h) | h
  · simp only [Char.isAlphanum, Bool.or_eq_true] at h
    rcases h with h | h
    · exact char_isAlpha_lt128 c h
    · simp [Char.isDigit] at h
      have h3 : c.val.toNat ≤ 57 := le_trans h.2 (by decide)
      simp only [Char.toNat]
      omega
  · rw [beq_iff_eq] at h; subst h; decide
  · rw [beq_iff_eq] at h; subst h; decide

/-- ASCII characters encode to a single UTF-8 byte. -/
theorem utf8Bytes_ascii (c : Char) (h : c.toNat < 128) : utf8Bytes c = [c.toNat] := by
  unfold utf8Bytes
  rw [if_pos h]

/-- The UTF-8 byte length of an all-ASCII character list is its length. -/
theorem ascii_len (l : List Char) (h : ∀ c ∈ l, c.toNat < 128) :
    (l.flatMap utf8Bytes).length = l.length := by
  induction l with
  | nil => simp
  | cons c rest ih =>
      rw [List.flatMap_cons, List.length_append, utf8Bytes_ascii c (h c (by simp)),
        ih (fun d hd => h d (by simp [hd]))]
      simp
      omega

/-- The tail loop of the name check succeeds exactly on the name class. -/
theorem validateNameChars_false_ok (l : List Char) :
    validateNameChars false l = Except.ok () ↔
      l.all (fun d => d.isAlphanum || d == '-' || d == '_') = true := by
  induction l with
  | nil => simp [validateNameChars]
  | cons c rest ih =>
      simp only [validateNameChars, List.all_cons]
      by_cases h : (c.isAlphanum || c = '-' || c = '_') = true
      · rw [if_pos h, ih]
        have hb : (c.isAlphanum || c == '-' || c == '_') = true := by
          simpa using h
        rw [hb]
        simp
      · rw [if_neg h]
        have hb : (c.isAlphanum || c == '-' || c == '_') = false := by
          simpa using h
        rw [hb]
        simp [validation_error]

/-- The head step of the name check requires an ASCII letter. -/
theorem validateNameChars_true_ok (c : Char) (rest : List Char) :
    validateNameChars true (c :: rest) = Except.ok () ↔
      (c.isAlpha = true ∧ validateNameChars false rest = Except.ok ()) := by
  simp only [validateNameChars]
  by_cases h : c.isAlpha = true
  · rw [if_pos h]
    simp [h]
  · rw [if_neg h]
    simp [validation_error, h]

/-- `validate_name` succeeds exactly on names matching the claimed pattern. -/
theorem validate_name_ok_iff (m : CrateMetadata) :
    m.validate_name = Except.ok () ↔ nameMatchesPattern m.name = true := by
  unfold CrateMetadata.validate_name nameMatchesPattern
  generalize m.name = s
  obtain ⟨l⟩ := s
  cases l with
  | nil => simp [validation_error]
  | cons c rest =>
      have hne : ¬ (String.mk (c :: rest) = "") := by
        simp [String.ext_iff]
      rw [if_neg hne]
      have hdata : (String.mk (c :: rest)).data = c :: rest := rfl
      rw [hdata]
      constructor
      · intro h
        have hlen : ¬ (64 < rustStrLen (String.mk (c :: rest))) := by
          intro hgt
          rw [if_pos hgt] at h
          simp [validation_error] at h
        rw [if_neg hlen] at h
        rw [validateNameChars_true_ok, validateNameChars_false_ok] at h
        obtain ⟨ha, hall⟩ := h
        have hascii : ∀ d ∈ c :: rest, d.toNat < 128 := by
          intro d hd
          rcases List.mem_cons.mp hd with rfl | hdr
          · exact char_isAlpha_lt128 d ha
          · rw [List.all_eq_true] at hall
            exact char_class_lt128 d (hall d hdr)
        have hslen : rustStrLen (String.mk (c :: rest)) = rest.length + 1 := by
          unfold rustStrLen strBytes
          rw [hdata, ascii_len _ hascii]
          simp
        rw [hslen] at hlen
        have hr63 : rest.length ≤ 63 := by omega
        show (c.isAlpha && Nat.ble rest.length 63 &&
          rest.all fun d => d.isAlphanum || d == '-' || d == '_') = true
        rw [ha, hall]
        simp [Nat.ble_eq]
        omega
      · intro h
        have h2 : (c.isAlpha && Nat.ble rest.length 63 &&
          (rest.all fun d => d.isAlphanum || d == '-' || d == '_')) = true := h
        clear h
        rename' h2 => h
        simp only [Bool.and_eq_true] at h
        obtain ⟨⟨ha, hble⟩, hall⟩ := h
        have hascii : ∀ d ∈ c :: rest, d.toNat < 128 := by
          intro d hd
          rcases List.mem_cons.mp hd with rfl | hdr
          · exact char_isAlpha_lt128 d ha
          · rw [List.all_eq_true] at hall
            exact char_class_lt128 d (hall d hdr)
        have hslen : rustStrLen (String.mk (c :: rest)) = rest.length + 1 := by
          unfold rustStrLen strBytes
          rw [hdata, ascii_len _ hascii]
          simp
        have hr63 : rest.length ≤ 63 := Nat.le_of_ble_eq_true hble
        rw [if_neg (by omega : ¬ (64 < rustStrLen (String.mk (c :: rest))))]
        rw [validateNameChars_true_ok, validateNameChars_false_ok]
        exact ⟨ha, hall⟩

/-- The kind loop succeeds exactly when every kind is normal, dev or build. -/
theorem validateKindLoop_ok_iff (deps : List Dependency) :
    validateKindLoop deps = Except.ok () ↔
      deps.all (fun d => d.kind == "normal" || d.kind == "dev" || d.kind == "build") = true := by
  induction deps with
  | nil => simp [validateKindLoop]
  | cons dep rest ih =>
      simp only [validateKindLoop, List.all_cons]
      by_cases h : dep.kind ≠ "dev" ∧ dep.kind ≠ "build" ∧ dep.kind ≠ "normal"
      · rw [if_pos h]
        obtain ⟨h1, h2, h3⟩ := h
        simp [validation_error, h1, h2, h3]
      · rw [if_neg h]
        push_neg at h
        rw [ih]
        by_cases h1 : dep.kind = "dev"
        · simp [h1]
        · by_cases h2 : dep.kind = "build"
          · simp [h2]
          · simp [h1, h2, h h1 h2]

/-- Every error of the name-character loop is an invalid-request error. -/
theorem validateNameChars_err (l : List Char) :
    ∀ b e, validateNameChars b l = Except.error e → e.kind = ErrorKind.invalidRequest := by
  induction l with
  | nil => intro b e h; cases b <;> simp [validateNameChars] at h
  | cons c rest ih =>
      intro b e h
      cases b <;> simp only [validateNameChars] at h
      · split at h
        · exact ih false e h
        · simp [validation_error, specialize, error_invalid_request] at h
          rw [← h]
      · split at h
        · exact ih false e h
        · simp [validation_error, specialize, error_invalid_request] at h
          rw [← h]

/-- Every error of the kind loop is an invalid-request error. -/
theorem validateKindLoop_err (deps : List Dependency) :
    ∀ e, validateKindLoop deps = Except.error e → e.kind = ErrorKind.invalidRequest := by
  induction deps with
  | nil => intro e h; simp [validateKindLoop] at h
  | cons dep rest ih =>
      intro e h
      simp only [validateKindLoop] at h
      split at h
      · simp [validation_error, specialize, error_invalid_request] at h
        rw [← h]
      · exact ih e h

/-- Every error of `validate_name` is an invalid-request error. -/
theorem validate_name_err (m : CrateMetadata) :
    ∀ e, m.validate_name = Except.error e → e.kind = ErrorKind.invalidRequest := by
  intro e h
  unfold CrateMetadata.validate_name at h
  split at h
  · simp [validation_error, specialize, error_invalid_request] at h
    rw [← h]
  · split at h
    · simp [validation_error, specialize, error_invalid_request] at h
      rw [← h]
    · exact validateNameChars_err _ true e h

set_option maxHeartbeats 4000000

/-- Validation of the SHA-256 embedding: the digest of the bytes of
`"hello"` from the specification's publish scenario. -/
theorem sha256_hello_vector :
    sha256 [104, 101, 108, 108, 111] =
      "2cf24dba5fb0a30e26e83b2ac5b9e29e1b161e5c1fa7425e73043362938b9824" := by decide

/-- Validation of the canonical-request construction against the published
AWS SigV4 GET object example (region `us-east-1`, service `s3`, date
`20130524`): the canonical-request hash matches the documented value. -/
theorem sigv4_aws_canonical_hash_vector :
    signing_get_canonical_request_hash "GET" "/test.txt" []
        [("host", "examplebucket.s3.amazonaws.com"), ("range", "bytes=0-9"),
         ("x-amz-content-sha256",
          "e3b0c44298fc1c149afbf4c8996fb92427ae41e4649b934ca495991b7852b855"),
         ("x-amz-date", "20130524T000000Z")]
        "e3b0c44298fc1c149afbf4c8996fb92427ae41e4649b934ca495991b7852b855" =
      some "7344ae5b7ee6c3e7e6b0fe0640412a37625d1fbfff95c48bbb2dc43964946972" := by
  decide

/-- Validation of the HMAC-SHA256 embedding against RFC 4231 test case 1
(key of twenty `0x0b` bytes, data `Hi There`). -/
theorem hmac_rfc4231_first_vector :
    String.mk (hexLowerBytes (hmacSha256 (List.replicate 20 11)
        [72, 105, 32, 84, 104, 101, 114, 101])) =
      "b0344c61d8db38535ca8afceaf0bf12b881dc200c9833da726e9376c2e32cff7" := by
  decide

/-- Every passthrough character is ASCII. -/
theorem passthrough_lt128 (c : Char) (h : encode_uri_passthrough c = true) :
    c.toNat < 128 := by
  simp only [encode_uri_passthrough, Bool.or_eq_true] at h
  rcases h with h | h
  · exact char_class_lt128 c (by simp [h])
  · simp only [List.any_eq_true] at h
    obtain ⟨a, ha, hac⟩ := h
    rw [beq_iff_eq] at hac
    subst hac
    fin_cases ha <;> decide

/-- The escaping loop encodes each character's scalar value, panicking
(`none`) exactly when some character exceeds 255. -/
theorem encodeUriLoop_eq (s : List Char) :
    encodeUriLoop s =
      (if s.all (fun c => c.toNat ≤ 255) then some (s.flatMap encodeUriCharModel)
       else none) := by
  induction s with
  | nil => simp [encodeUriLoop]
  | cons c rest ih =>
      simp only [encodeUriLoop, List.all_cons, List.flatMap_cons]
      by_cases hp : encode_uri_passthrough c = true
      · rw [if_pos hp, ih]
        have hc : c.toNat ≤ 255 := le_of_lt (lt_trans (passthrough_lt128 c hp) (by omega))
        have hmc : encodeUriCharModel c = [c] := by rw [encodeUriCharModel, if_pos hp]
        by_cases hall : rest.all (fun c => c.toNat ≤ 255) = true
        · simp [hall, hc, hmc]
        · simp [hall, hc]
      · rw [if_neg hp]
        by_cases h255 : c.toNat ≤ 255
        · rw [if_pos h255, ih]
          have hmc : encodeUriCharModel c = percentEscape c := by
            rw [encodeUriCharModel, if_neg hp]
          by_cases hall : rest.all (fun c => c.toNat ≤ 255) = true
          · simp [hall, h255, hmc]
          · simp [hall, h255]
        · rw [if_neg h255]
          simp [h255]

/-- The per-character encoder is the identity on passthrough strings. -/
theorem flatMap_model_id (s : List Char)
    (h : ∀ c ∈ s, encode_uri_passthrough c = true) :
    s.flatMap encodeUriCharModel = s := by
  induction s with
  | nil => simp
  | cons c rest ih =>
      rw [List.flatMap_cons, ih (fun d hd => h d (by simp [hd]))]
      rw [encodeUriCharModel, if_pos (h c (by simp))]
      rfl

/-- Transitivity of the byte-lexicographic string order. -/
theorem charsLe_trans : ∀ a b c : List Char,
    charsLe a b = true → charsLe b c = true → charsLe a c = true := by
  intro a
  induction a with
  | nil => intro b c _ _; simp [charsLe]
  | cons x xs ih =>
      intro b c hab hbc
      cases b with
      | nil => simp [charsLe] at hab
      | cons y ys =>
          cases c with
          | nil => simp [charsLe] at hbc
          | cons z zs =>
              simp only [charsLe] at hab hbc ⊢
              split_ifs at hab hbc ⊢ <;>
                first
                  | rfl
                  | omega
                  | simp at hab
                  | simp at hbc
                  | exact ih ys zs hab hbc

/-- Totality of the byte-lexicographic string order. -/
theorem charsLe_total : ∀ a b : List Char,
    (charsLe a b || charsLe b a) = true := by
  intro a
  induction a with
  | nil => intro b; simp [charsLe]
  | cons x xs ih =>
      intro b
      cases b with
      | nil => simp [charsLe]
      | cons y ys =>
          simp only [charsLe]
          split_ifs <;> first | exact ih ys | simp | (simp only [Bool.or_eq_true]; omega)

/-! ## Claim theorems -/

/-- C6: `CrateMetadata::validate` succeeds if and only if the name matches
`^[A-Za-z][A-Za-z0-9_-]{0,63}$` and every dependency kind is one of
`normal`, `dev`, `build`; on success it returns the default upload result
and on failure an invalid-request error. -/
theorem validate_success_iff (m : CrateMetadata) :
    ((∃ r, m.validate = Except.ok r) ↔
      (nameMatchesPattern m.name = true ∧
        m.deps.all (fun d =>
          d.kind == "normal" || d.kind == "dev" || d.kind == "build") = true)) ∧
    (match m.validate with
     | Except.ok r => r = CrateUploadResult.default
     | Except.error e => e.kind = ErrorKind.invalidRequest) := by
  unfold CrateMetadata.validate
  constructor
  · cases hn : m.validate_name with
    | error e =>
        simp only []
        constructor
        · intro ⟨r, hr⟩; simp at hr
        · intro ⟨hp, _⟩
          rw [← validate_name_ok_iff] at hp
          rw [hn] at hp
          simp at hp
    | ok u =>
        cases u
        cases hk : CrateMetadata.validate_kind m with
        | error e =>
            simp only []
            constructor
            · intro ⟨r, hr⟩; simp at hr
            · intro ⟨_, hd⟩
              rw [← validateKindLoop_ok_iff] at hd
              unfold CrateMetadata.validate_kind at hk
              rw [hk] at hd
              simp at hd
        | ok u =>
            cases u
            simp only []
            constructor
            · intro _
              constructor
              · rw [← validate_name_ok_iff, hn]
              · rw [← validateKindLoop_ok_iff]
                unfold CrateMetadata.validate_kind at hk
                rw [hk]
            · intro _
              exact ⟨CrateUploadResult.default, rfl⟩
  · cases hn : m.validate_name with
    | error e =>
        simp only []
        exact validate_name_err m e hn
    | ok u =>
        cases u
        cases hk : CrateMetadata.validate_kind m with
        | error e =>
            simp only []
            exact validateKindLoop_err m.deps e hk
        | ok u =>
            cases u
            simp only []

/-- C1: `CrateUploadData::new` does NOT return an invalid-request error on
out-of-range declared lengths — it panics.  A declared metadata length of 5
with no metadata bytes panics at the `&buffer[4..9]` slice, and a declared
content length of 7 with no content bytes panics in `copy_from_slice`. -/
theorem crate_upload_new_panics_on_overrun
    (parse : List Nat → Option CrateMetadata) (m : CrateMetadata)
    (hp : parse [] = some m) :
    CrateUploadData.new parse [5, 0, 0, 0] = UploadOutcome.panicked ∧
    CrateUploadData.new parse [0, 0, 0, 0, 7, 0, 0, 0] = UploadOutcome.panicked := by
  constructor
  · rfl
  · simp [CrateUploadData.new, readU32LE, hp]

/-- C1 witness: the panics at the two concrete buffers, with a parser that
accepts the empty metadata document. -/
theorem crate_upload_new_panics_on_overrun_witness :
    CrateUploadData.new (fun _ => some sampleMetadata) [5, 0, 0, 0] =
      UploadOutcome.panicked ∧
    CrateUploadData.new (fun _ => some sampleMetadata) [0, 0, 0, 0, 7, 0, 0, 0] =
      UploadOutcome.panicked :=
  crate_upload_new_panics_on_overrun (fun _ => some sampleMetadata) sampleMetadata rfl

/-- C5: `encode_uri` is the identity on strings made of passthrough
characters, hence idempotent there. -/
theorem encode_uri_idempotent_on_passthrough (s : List Char)
    (h : ∀ c ∈ s, encode_uri_passthrough c = true) :
    encode_uri s = some s ∧ (encode_uri s).bind encode_uri = encode_uri s := by
  have hz : (s.map (fun c => if encode_uri_passthrough c then 0 else 1)).sum = 0 := by
    apply List.sum_eq_zero
    intro x hx
    rw [List.mem_map] at hx
    obtain ⟨c, hc, rfl⟩ := hx
    simp [h c hc]
  have he : encode_uri s = some s := by
    unfold encode_uri
    rw [hz]
    simp
  refine ⟨he, ?_⟩
  rw [he, Option.some_bind, he]

/-- C5 witness: identity and idempotence at a concrete passthrough string. -/
theorem encode_uri_idempotent_on_passthrough_witness :
    encode_uri "abc/XYZ-_.~09".data = some "abc/XYZ-_.~09".data ∧
    (encode_uri "abc/XYZ-_.~09".data).bind encode_uri =
      encode_uri "abc/XYZ-_.~09".data :=
  encode_uri_idempotent_on_passthrough _ (by decide)

/-- C7: the index record copies name, version, features and links from the
metadata, maps each dependency to its index form, and its `cksum` is the
64-character lowercase-hex SHA-256 digest of the archive bytes. -/
theorem build_index_data_spec (u : CrateUploadData) :
    u.build_index_data.cksum = sha256 u.content ∧
    u.build_index_data.cksum.data.length = 64 ∧
    (∀ c ∈ u.build_index_data.cksum.data, c ∈ "0123456789abcdef".data) ∧
    u.build_index_data.name = u.metadata.name ∧
    u.build_index_data.vers = u.metadata.vers ∧
    u.build_index_data.features = u.metadata.features ∧
    u.build_index_data.links = u.metadata.links ∧
    u.build_index_data.deps = u.metadata.deps.map DependencyIndex.from := by
  refine ⟨rfl, ?_, ?_, rfl, rfl, rfl, rfl, rfl⟩
  · show (hexLowerBytes (sha256Digest u.content)).length = 64
    rw [hexLowerBytes_length, sha256Digest_length]
  · intro c hc
    exact hexLowerBytes_mem _ c hc

/-- C10: a freshly built index record is never yanked. -/
theorem build_index_data_unyanked (u : CrateUploadData) :
    u.build_index_data.yanked = false := rfl

/-- C4 (amended): `encode_uri` keeps passthrough characters, replaces
every other character of scalar value at most 255 by the uppercase `%XX`
escape of that scalar value, and panics (`none`) as soon as the input has
a character above U+00FF; in particular it is not total and not
byte-level. -/
theorem encode_uri_char_level (s : List Char) :
    encode_uri s =
      (if s.all (fun c => c.toNat ≤ 255) then some (s.flatMap encodeUriCharModel)
       else none) := by
  unfold encode_uri
  by_cases hz : (s.map (fun c => if encode_uri_passthrough c then 0 else 1)).sum = 0
  · rw [if_pos hz]
    rw [List.sum_eq_zero_iff] at hz
    have hall : ∀ c ∈ s, encode_uri_passthrough c = true := by
      intro c hc
      have := hz _ (List.mem_map.mpr ⟨c, hc, rfl⟩)
      by_contra hnc
      rw [if_neg hnc] at this
      exact one_ne_zero this
    have h255 : s.all (fun c => c.toNat ≤ 255) = true := by
      rw [List.all_eq_true]
      intro c hc
      exact decide_eq_true (le_of_lt (lt_trans (passthrough_lt128 c (hall c hc)) (by omega)))
    rw [if_pos h255, flatMap_model_id s hall]
  · rw [if_neg hz]
    exact encodeUriLoop_eq s

/-- C4 counterexample: the claim fails as stated.  On the one-character
string of U+20AC the function panics instead of returning a result, and on
U+00E9 it yields the scalar escape `%E9` where the claimed byte-level
encoding of the UTF-8 bytes is `%C3%A9`. -/
theorem encode_uri_counterexample :
    encode_uri [Char.ofNat 8364] = none ∧
    encode_uri [Char.ofNat 233] = some "%E9".data ∧
    encodeUriBytesSpec (String.mk [Char.ofNat 233]) = "%C3%A9" ∧
    some "%E9".data ≠ some "%C3%A9".data := by
  refine ⟨by decide, by decide, by decide, by decide⟩

/-- C3 counterexample: the claim fails as stated.  On the query
`[(a, 1), (a-, 2)]` the code produces `a-=2&a=1` (it sorts the joined
`key=value` strings, and `-` sorts before `=`), while ordering by encoded
key then value as the claim states yields `a=1&a-=2`. -/
theorem canonical_query_counterexample :
    canonicalQueryString [("a", "1"), ("a-", "2")] = some "a-=2&a=1" ∧
    canonicalQueryStringSpec [("a", "1"), ("a-", "2")] = some "a=1&a-=2" ∧
    ("a-=2&a=1" : String) ≠ "a=1&a-=2" := by
  refine ⟨by decide, by decide, by decide⟩

/-- C3 (amended): the canonical query string is the `encoded_key=encoded_value`
pair strings sorted lexicographically as whole strings (not by key first)
and joined with `&`: formally, the join of a sorted permutation of the
encoded pair strings. -/
theorem canonical_query_sorted_join (query : List (String × String)) (vars : List String)
    (h : encPairStrings query = some vars) :
    ∃ l : List String, l.Perm vars ∧ List.Sorted strLeR l ∧
      canonicalQueryString query = some (String.intercalate "&" l) := by
  haveI : IsTrans String strLeR :=
    ⟨fun a b c hab hbc => charsLe_trans a.data b.data c.data hab hbc⟩
  haveI : IsTotal String strLeR := by
    constructor
    intro a b
    have ht := charsLe_total a.data b.data
    rcases Bool.or_eq_true_iff.mp ht with hx | hx
    · exact Or.inl hx
    · exact Or.inr hx
  refine ⟨List.insertionSort strLeR vars, List.perm_insertionSort strLeR vars,
    List.sorted_insertionSort strLeR vars, ?_⟩
  cases query with
  | nil =>
      simp only [encPairStrings] at h
      cases h
      rfl
  | cons p rest =>
      unfold canonicalQueryString
      rw [if_neg (by simp)]
      rw [h]
      rfl

/-- C3 witness: the sorted-join property at the concrete two-parameter
query. -/
theorem canonical_query_sorted_join_witness :
    ∃ l : List String, l.Perm ["a=1", "a-=2"] ∧ List.Sorted strLeR l ∧
      canonicalQueryString [("a", "1"), ("a-", "2")] =
        some (String.intercalate "&" l) :=
  canonical_query_sorted_join [("a", "1"), ("a-", "2")] ["a=1", "a-=2"] rfl

/-- C8: `check_is_user` returns the id of an active user with the
principal's email when one exists in the store, and fails with an
unauthorized error otherwise (in particular for inactive users). -/
theorem check_is_user_spec (db : List RegistryUser) (principal : String) :
    ((∃ u ∈ db, u.is_active = true ∧ u.email = principal) →
      ∃ u ∈ db, u.is_active = true ∧ u.email = principal ∧
        Application.check_is_user db principal = Except.ok u.id) ∧
    ((¬ ∃ u ∈ db, u.is_active = true ∧ u.email = principal) →
      Application.check_is_user db principal = Except.error error_unauthorized) := by
  constructor
  · intro hex
    have hsome : (db.find? (fun u => u.is_active && u.email == principal)).isSome := by
      rw [List.find?_isSome]
      obtain ⟨u, hu, ha, he⟩ := hex
      exact ⟨u, hu, by simp [ha, he]⟩
    obtain ⟨row, hrow⟩ := Option.isSome_iff_exists.mp hsome
    have hp := List.find?_some hrow
    have hmem := List.mem_of_find?_eq_some hrow
    simp only [Bool.and_eq_true, beq_iff_eq] at hp
    refine ⟨row, hmem, hp.1, hp.2, ?_⟩
    unfold Application.check_is_user
    rw [hrow]
  · intro hnex
    unfold Application.check_is_user
    have hnone : db.find? (fun u => u.is_active && u.email == principal) = none := by
      rw [List.find?_eq_none]
      intro u hu hppu
      simp only [Bool.and_eq_true, beq_iff_eq] at hppu
      exact hnex ⟨u, hu, hppu.1, hppu.2⟩
    rw [hnone]

/-- C8 witness: a store with one active user authenticates that user's
email, and a store with only an inactive user rejects it as unauthorized. -/
theorem check_is_user_spec_witness :
    (∃ u ∈ [RegistryUser.mk 1 true "alice@example.com" "alice" "Alice" ""],
      u.is_active = true ∧ u.email = "alice@example.com" ∧
        Application.check_is_user
          [RegistryUser.mk 1 true "alice@example.com" "alice" "Alice" ""]
          "alice@example.com" = Except.ok u.id) ∧
    Application.check_is_user
        [RegistryUser.mk 2 false "bob@example.com" "bob" "Bob" ""]
        "bob@example.com" = Except.error error_unauthorized :=
  ⟨(check_is_user_spec [RegistryUser.mk 1 true "alice@example.com" "alice" "Alice" ""]
      "alice@example.com").1
    ⟨RegistryUser.mk 1 true "alice@example.com" "alice" "Alice" "", by simp, rfl, rfl⟩,
   (check_is_user_spec [RegistryUser.mk 2 false "bob@example.com" "bob" "Bob" ""]
      "bob@example.com").2 (by decide)⟩

/-- C2: the code does not put the configured service in the Authorization
credential scope, and does not sort the SignedHeaders list.  At a concrete
request signed with configured service `ec2`, the emitted header reads
`Credential=.../s3/aws4_request` although the embedded signature is
computed from the string to sign and the signing key of the `ec2` scope,
so the header is internally inconsistent whenever the configured service
is not `s3`; and the SignedHeaders component is the header-map order
`x-amz-date;x-amz-content-sha256`, not the ascending order used in the
canonical request. -/
theorem sign_request_scope_and_headers_eval (ch : String)
    (h : signing_get_canonical_request_hash "GET" "/" []
        [("x-amz-date", "20130524T000000Z"),
         ("x-amz-content-sha256", "UNSIGNED-PAYLOAD")] "UNSIGNED-PAYLOAD" = some ch) :
    sign_request ⟨"https://s3.example.com", "us-east-1", some "ec2", "AKID", "SK"⟩
        "GET" "/" [] [] "UNSIGNED-PAYLOAD" "20130524T000000Z" "20130524" =
      some [("x-amz-date", "20130524T000000Z"),
            ("x-amz-content-sha256", "UNSIGNED-PAYLOAD"),
            ("authorization",
             "AWS4-HMAC-SHA256 Credential=AKID/20130524/us-east-1/s3/aws4_request, SignedHeaders=x-amz-date;x-amz-content-sha256, Signature=" ++
               signing_do_sign
                 (signing_get_string_to_sign "20130524T000000Z" "20130524"
                   "us-east-1" "ec2" ch)
                 (signing_get_key "SK" "20130524" "us-east-1" "ec2"))] := by
  have h2 : signing_get_canonical_request_hash "GET" "/" []
      (headerInsert (headerInsert [] "x-amz-date" "20130524T000000Z")
        "x-amz-content-sha256" "UNSIGNED-PAYLOAD") "UNSIGNED-PAYLOAD" = some ch := h
  simp only [sign_request]
  rw [h2]
  rfl

/-- C2 witness: the evaluation at the concrete canonical-request hash of
the request above, discharging the hypothesis by computation. -/
theorem sign_request_scope_and_headers_eval_witness :
    sign_request ⟨"https://s3.example.com", "us-east-1", some "ec2", "AKID", "SK"⟩
        "GET" "/" [] [] "UNSIGNED-PAYLOAD" "20130524T000000Z" "20130524" =
      some [("x-amz-date", "20130524T000000Z"),
            ("x-amz-content-sha256", "UNSIGNED-PAYLOAD"),
            ("authorization",
             "AWS4-HMAC-SHA256 Credential=AKID/20130524/us-east-1/s3/aws4_request, SignedHeaders=x-amz-date;x-amz-content-sha256, Signature=" ++
               signing_do_sign
                 (signing_get_string_to_sign "20130524T000000Z" "20130524"
                   "us-east-1" "ec2"
                   "060a71b10c60180528c747e1ee518538592a5b40c3a821a6cccf389e65e8d3c5")
                 (signing_get_key "SK" "20130524" "us-east-1" "ec2"))] :=
  sign_request_scope_and_headers_eval
    "060a71b10c60180528c747e1ee518538592a5b40c3a821a6cccf389e65e8d3c5" (by decide)

/-- C9 counterexample: the claim's "exactly when `1` or `true`" fails.
With `REGISTRY_GIT_REMOTE_PUSH_CHANGES` set to `TRUE` (not in the claimed
truthy set), `from_env` succeeds with `remote_push_changes = true`,
because the source compares with `eq_ignore_ascii_case`. -/
theorem from_env_push_truthy_counterexample :
    ¬ (∀ (ps : ExternalParsers) (selfLogin selfToken : String) (fuel : Nat)
          (env : Env) (c : Configuration),
        Configuration.from_env ps selfLogin selfToken fuel env = ConfigOutcome.ok c →
        (c.index_config.remote_push_changes = true ↔
          (env "REGISTRY_GIT_REMOTE_PUSH_CHANGES" = some "1" ∨
           env "REGISTRY_GIT_REMOTE_PUSH_CHANGES" = some "true"))) := by
  intro hclaim
  obtain ⟨c, hc, hpush⟩ :
      ∃ c, Configuration.from_env trivialParsers "L" "T" 1
            (envOfList (("REGISTRY_GIT_REMOTE_PUSH_CHANGES", "TRUE") :: baseEnvList)) =
          ConfigOutcome.ok c ∧
        c.index_config.remote_push_changes = true := ⟨_, rfl, rfl⟩
  have hiff := hclaim trivialParsers "L" "T" 1
    (envOfList (("REGISTRY_GIT_REMOTE_PUSH_CHANGES", "TRUE") :: baseEnvList)) c hc
  have hval : envOfList (("REGISTRY_GIT_REMOTE_PUSH_CHANGES", "TRUE") :: baseEnvList)
      "REGISTRY_GIT_REMOTE_PUSH_CHANGES" = some "TRUE" := rfl
  rcases hiff.mp hpush with h | h <;> (rw [hval] at h; simp at h)

/-- C9 (amended): with the optional variables absent, `from_env` yields
listen IP `0.0.0.0`, port `8080` and body limit `10485760`; and
`remote_push_changes` is true exactly when the push variable is set to
`1` or to any ASCII-case-insensitive spelling of `true` (it is false when
the variable is unset, since the right-hand side then has no witness). -/
theorem from_env_defaults_and_push (ps : ExternalParsers)
    (selfLogin selfToken : String) (fuel : Nat) (env : Env) (c : Configuration)
    (hok : Configuration.from_env ps selfLogin selfToken fuel env = ConfigOutcome.ok c)
    (hip : env "REGISTRY_WEB_LISTENON_IP" = none)
    (hport : env "REGISTRY_WEB_LISTENON_PORT" = none)
    (hbody : env "REGISTRY_WEB_BODY_LIMIT" = none) :
    c.web_listenon_ip = IpAddr.v4 0 0 0 0 ∧
    c.web_listenon_port = 8080 ∧
    c.web_body_limit = 10485760 ∧
    (c.index_config.remote_push_changes = true ↔
      (env "REGISTRY_GIT_REMOTE_PUSH_CHANGES" = some "1" ∨
       (∃ v, env "REGISTRY_GIT_REMOTE_PUSH_CHANGES" = some v ∧
         eqIgnoreAsciiCase v "true" = true))) := by
  unfold Configuration.from_env at hok
  rw [hip, hport, hbody] at hok
  simp only [Option.map_none', Option.none_bind] at hok
  repeat (split at hok <;> try exact ConfigOutcome.noConfusion hok)
  all_goals (cases hok; refine ⟨rfl, rfl, rfl, ?_⟩)
  all_goals
    first
    | (rename_i v heq
       rw [heq]
       simp only [Option.some.injEq]
       constructor
       · intro hb
         rcases Bool.or_eq_true_iff.mp hb with hb | hb
         · exact Or.inl (by rw [beq_iff_eq] at hb; rw [hb])
         · exact Or.inr ⟨v, rfl, hb⟩
       · intro hd
         rcases hd with h1 | ⟨w, hw, hw2⟩
         · rw [h1]; simp
         · cases hw; rw [hw2]; simp)
    | (rename_i heq
       rw [heq]
       simp)

/-- C9 witness: the defaults at the concrete witness environment, where
the push variable is unset and the flag comes out false. -/
theorem from_env_defaults_and_push_witness :
    ∃ c, Configuration.from_env trivialParsers "L" "T" 1 (envOfList baseEnvList) =
          ConfigOutcome.ok c ∧
        c.web_listenon_ip = IpAddr.v4 0 0 0 0 ∧ c.web_listenon_port = 8080 ∧
        c.web_body_limit = 10485760 ∧ c.index_config.remote_push_changes = false := by
  have h := from_env_defaults_and_push trivialParsers "L" "T" 1 (envOfList baseEnvList)
  refine ⟨_, rfl, (h _ rfl rfl rfl rfl).1, (h _ rfl rfl rfl rfl).2.1,
    (h _ rfl rfl rfl rfl).2.2.1, ?_⟩
  have h4 := (h _ rfl rfl rfl rfl).2.2.2
  have hnone : envOfList baseEnvList "REGISTRY_GIT_REMOTE_PUSH_CHANGES" = none := rfl
  rw [Bool.eq_false_iff]
  intro hp
  rcases h4.mp hp with hx | ⟨v, hv, _⟩
  · rw [hnone] at hx; exact Option.noConfusion hx
  · rw [hnone] at hv; exact Option.noConfusion hv

end Cratery
